import Mathlib

/-!
# Verification of the Mercosur Trade MCP resolver tools

A shallow embedding of the bilateral/symmetric relation resolver tools of the
Mercosur Trade MCP server, translated from the TypeScript source:

* `src/tools/common.ts` — `COUNTRY_NAMES`, `countryName`
* `src/utils/metadata.ts` — `ResponseMeta`, `buildMeta`
* `getDataTransferRules` — single-row direction-preferring lookup
* `getMutualRecognition` — multi-row union-of-both-directions lookup
* `checkDigitalTradeObligations` — membership scan over a denormalized field

Modelling conventions:

* JS strings are Lean `String`; `String.prototype.toUpperCase()` is modelled
  char-wise with `Char.toUpper` (`strUpper`), which is exact on the ASCII
  country codes and field values this server handles.
* The SQLite store is a list of row structures in rowid order; a prepared
  `.get(...)` is `List.find?` and `.all(...)` is `List.filter` followed by the
  `ORDER BY` sort.  `NULL`able columns are `Option` fields.
* SQLite's default `LIKE` operator (no `ESCAPE`, `%`/`_` wildcards,
  ASCII-case-insensitive) is modelled by `likeMatch`.
* `ORDER BY` over `TEXT` columns uses the default `BINARY` collation, i.e.
  byte-lexicographic order of the UTF-8 encoding, with `NULL`s first; this is
  `listLtB` (codepoint-lexicographic equals byte-lexicographic for UTF-8)
  lifted to `Option` by `optLtB`/`optLeB`.  The sort itself is modelled by the
  stable `List.insertionSort`.
* `buildMeta()` reads the current date; the embedding passes the formatted
  date in as the `today` argument.
-/

/-- ASCII char-wise uppercase, modelling `String.prototype.toUpperCase` on the
strings this server handles. -/
def strUpper (s : String) : String := ⟨s.data.map Char.toUpper⟩

/-- `COUNTRY_NAMES` from `src/tools/common.ts`: static code → display name map
(object key lookup modelled as association-list lookup). -/
def COUNTRY_NAMES : List (String × String) :=
  [(("AR"), ("Argentina")), (("BO"), ("Bolivia")), (("BR"), ("Brazil")),
   (("CL"), ("Chile")), (("CO"), ("Colombia")), (("EC"), ("Ecuador")),
   (("GY"), ("Guyana")), (("MX"), ("Mexico")), (("PE"), ("Peru")),
   (("PY"), ("Paraguay")), (("SR"), ("Suriname")), (("UY"), ("Uruguay")),
   (("VE"), ("Venezuela"))]

/-- `countryName` from `src/tools/common.ts`:
`COUNTRY_NAMES[code.toUpperCase()] ?? code.toUpperCase()`. -/
def countryName (code : String) : String :=
  match COUNTRY_NAMES.find? (fun p => p.1 == strUpper code) with
  | some p => p.2
  | none => strUpper code

/-- `ResponseMeta` from `src/utils/metadata.ts`. -/
structure ResponseMeta where
  disclaimer : String
  data_age : String
  server : String
  version : String
  deriving DecidableEq

/-- The `DISCLAIMER` constant from `src/utils/metadata.ts`. -/
def DISCLAIMER : String :=
  "Reference tool only. Not legal or trade advice. Verify against official treaty texts and consult qualified trade counsel."

/-- `buildMeta` from `src/utils/metadata.ts` (no overrides are ever passed by
the tools); `toIsoDate()` is passed in as `today`. -/
def buildMeta (today : String) : ResponseMeta :=
  { disclaimer := DISCLAIMER, data_age := today,
    server := ("mercosur-trade-mcp"), version := ("0.1.0") }

/-- A row of the `data_transfer_rules` table (`scripts/build-db.ts` schema);
`UNIQUE(source_country, dest_country)` holds on the ordered pair only. -/
structure TransferRule where
  id : Nat
  source_country : String
  dest_country : String
  framework : Option String
  adequacy_status : Option String
  transfer_mechanisms : Option String
  restrictions : Option String
  legal_basis : Option String
  deriving DecidableEq

/-- The columns of the `agreements` table used by the joins (`id` is the
`TEXT PRIMARY KEY`, `title` is `NOT NULL`). -/
structure Agreement where
  id : String
  title : String
  deriving DecidableEq

/-- A row of the `mutual_recognition` table (`scripts/build-db.ts` schema). -/
structure MutualRecognitionRow where
  id : Nat
  country_a : String
  country_b : String
  domain : String
  agreement_id : Option String
  description : Option String
  status : Option String
  deriving DecidableEq

/-- A row of the `digital_trade_obligations` table (`scripts/build-db.ts`
schema); `countries` is the denormalized comma-joined country list. -/
structure ObligationRow where
  id : Nat
  agreement_id : Option String
  countries : String
  obligation : String
  chapter : Option String
  description : Option String
  legal_basis : Option String
  deriving DecidableEq

/-- `LEFT JOIN agreements a ON a.id = mr.agreement_id` (resp. `dto`): since
`agreements.id` is the primary key, the join attaches at most one `title`;
a `NULL` key or a missing agreement yields `NULL`. -/
def joinAgreementTitle (ags : List Agreement) (aid : Option String) : Option String :=
  match aid with
  | none => none
  | some a => (ags.find? (fun ag => ag.id == a)).map Agreement.title

/-- Result envelope of `getDataTransferRules`; JS object keys that are absent
on one of the two return paths are `Option` fields (`none` = key absent). -/
structure DataTransferResult where
  found : Bool
  source_country : String
  source_country_name : String
  dest_country : String
  dest_country_name : String
  reversed_lookup : Option Bool
  rules : Option TransferRule
  message : Option String
  _metadata : ResponseMeta
  deriving DecidableEq

/-- The `WHERE source_country = ? AND dest_country = ?` condition of the
data-transfer-rules lookup. -/
def dtrExact (src dst : String) (r : TransferRule) : Bool :=
  r.source_country == src && r.dest_country == dst

/-- `getDataTransferRules` from the data-transfer-rules tool module: uppercase
both codes, `.get` the exact direction, on miss `.get` the reverse direction,
else a not-found envelope naming both display names. -/
def getDataTransferRules (db : List TransferRule) (today : String)
    (source_country dest_country : String) : DataTransferResult :=
  let src := strUpper source_country
  let dst := strUpper dest_country
  match db.find? (dtrExact src dst) with
  | some row =>
    { found := true, source_country := src, source_country_name := countryName src,
      dest_country := dst, dest_country_name := countryName dst,
      reversed_lookup := some false, rules := some row, message := none,
      _metadata := buildMeta today }
  | none =>
    match db.find? (dtrExact dst src) with
    | some row =>
      { found := true, source_country := src, source_country_name := countryName src,
        dest_country := dst, dest_country_name := countryName dst,
        reversed_lookup := some true, rules := some row, message := none,
        _metadata := buildMeta today }
    | none =>
      { found := false, source_country := src, source_country_name := countryName src,
        dest_country := dst, dest_country_name := countryName dst,
        reversed_lookup := none, rules := none,
        message := some (("No data transfer rules found between ") ++ countryName src
          ++ (" and ") ++ countryName dst ++ (".")),
        _metadata := buildMeta today }

/-- JS truthiness of the optional `domain` string: `undefined` and `""` are
falsy, every other string is truthy (`if (input.domain)`). -/
def truthyStr : Option String → Bool
  | none => false
  | some s => !(s == (""))

/-- A `mutual_recognition` row joined with the agreement title. -/
structure MRJoined where
  row : MutualRecognitionRow
  agreement_title : Option String
  deriving DecidableEq

/-- Byte-lexicographic strict order on char lists (UTF-8 byte order equals
codepoint-lexicographic order), modelling SQLite `BINARY` collation. -/
def listLtB : List Char → List Char → Bool
  | [], [] => false
  | [], _ :: _ => true
  | _ :: _, [] => false
  | a :: as, b :: bs => decide (a < b) || (a == b && listLtB as bs)

/-- `BINARY`-collation strict order on strings. -/
def strLtB (a b : String) : Bool := listLtB a.data b.data

/-- `BINARY`-collation non-strict order on strings. -/
def strLeB (a b : String) : Bool := strLtB a b || a == b

/-- SQLite `ORDER BY` comparison on a nullable `TEXT` column: `NULL`s sort
first, non-null values by `BINARY` collation (strict form). -/
def optLtB : Option String → Option String → Bool
  | none, none => false
  | none, some _ => true
  | some _, none => false
  | some x, some y => strLtB x y

/-- Non-strict form of `optLtB`. -/
def optLeB (a b : Option String) : Bool := optLtB a b || a == b

/-- The `ORDER BY mr.domain` comparison (`domain` is `NOT NULL`). -/
def mrDomLe (x y : MRJoined) : Prop := strLeB x.row.domain y.row.domain = true

instance : DecidableRel mrDomLe :=
  fun x y => instDecidableEqBool (strLeB x.row.domain y.row.domain) true

/-- Result envelope of `getMutualRecognition`. -/
structure MutualRecognitionResult where
  found : Bool
  country_a : String
  country_a_name : String
  country_b : String
  country_b_name : String
  domain : Option String
  count : Option Nat
  agreements : Option (List MRJoined)
  message : Option String
  _meta : ResponseMeta
  deriving DecidableEq

/-- The ` in domain "..."` fragment of the not-found message (present only
when `input.domain` is truthy). -/
def domainMsg (domain : Option String) : String :=
  if truthyStr domain then ((" in domain \"") ++ domain.getD ("") ++ ("\"")) else ("")

/-- The `WHERE` pair condition of `getMutualRecognition`: a true union of both
storage orderings, evaluated in one pass. -/
def mrPairMatch (a b : String) (r : MutualRecognitionRow) : Bool :=
  (r.country_a == a && r.country_b == b) || (r.country_a == b && r.country_b == a)

/-- The row list computed by the `getMutualRecognition` query for the
(already uppercased) pair `(a, b)`: pair filter, optional domain conjunct,
left join, `ORDER BY mr.domain`. -/
def mrQueryRows (mrdb : List MutualRecognitionRow) (ags : List Agreement)
    (a b : String) (domain : Option String) : List MRJoined :=
  let base := mrdb.filter (mrPairMatch a b)
  let restricted := if truthyStr domain
    then base.filter (fun r => r.domain == domain.getD (""))
    else base
  List.insertionSort mrDomLe
    (restricted.map (fun r => MRJoined.mk r (joinAgreementTitle ags r.agreement_id)))

/-- `getMutualRecognition` from the mutual-recognition tool module: uppercase
both codes, run the union-of-both-directions query, and wrap. -/
def getMutualRecognition (mrdb : List MutualRecognitionRow) (ags : List Agreement)
    (today country_a country_b : String) (domain : Option String) : MutualRecognitionResult :=
  let a := strUpper country_a
  let b := strUpper country_b
  let rows := mrQueryRows mrdb ags a b domain
  if rows.isEmpty then
    { found := false, country_a := a, country_a_name := countryName a,
      country_b := b, country_b_name := countryName b, domain := domain,
      count := none, agreements := none,
      message := some (("No mutual recognition agreements found between ")
        ++ countryName a ++ (" and ") ++ countryName b ++ domainMsg domain ++ (".")),
      _meta := buildMeta today }
  else
    { found := true, country_a := a, country_a_name := countryName a,
      country_b := b, country_b_name := countryName b, domain := domain,
      count := some rows.length, agreements := some rows, message := none,
      _meta := buildMeta today }

/-- The rows payload of a mutual-recognition result (`[]` when absent). -/
def mrRows (r : MutualRecognitionResult) : List MRJoined := r.agreements.getD []

/-- SQLite's default `LIKE` operator (no `ESCAPE` clause): `%` matches any
sequence, `_` matches any single character, and literal characters compare
ASCII-case-insensitively.  First argument is the pattern, second the text. -/
def likeMatch : List Char → List Char → Bool
  | [], t => t.isEmpty
  | q :: ps, t =>
    if q == '%' then t.tails.any (fun u => likeMatch ps u)
    else match t with
      | [] => false
      | c :: cs => if q == '_' then likeMatch ps cs
                   else (q.toUpper == c.toUpper) && likeMatch ps cs

/-- The pattern `` `%${code}%` `` spliced by `checkDigitalTradeObligations`. -/
def likePattern (code : String) : List Char := '%' :: (code.data ++ [ '%' ])

/-- The `WHERE` clause of the obligations query: an `OR` of
`dto.countries LIKE '%CODE%'` over the (already uppercased) query codes. -/
def obMatch (codes : List String) (r : ObligationRow) : Bool :=
  codes.any (fun c => likeMatch (likePattern c) r.countries.data)

/-- A `digital_trade_obligations` row joined with the agreement title. -/
structure ObJoined where
  row : ObligationRow
  agreement_title : Option String
  deriving DecidableEq

/-- The `ORDER BY dto.agreement_id, dto.chapter` comparison (both columns
nullable, `NULL`s first). -/
def obKeyLeB (x y : ObJoined) : Bool :=
  optLtB x.row.agreement_id y.row.agreement_id
    || (x.row.agreement_id == y.row.agreement_id && optLeB x.row.chapter y.row.chapter)

/-- Propositional form of `obKeyLeB`. -/
def obKeyLe (x y : ObJoined) : Prop := obKeyLeB x y = true

instance : DecidableRel obKeyLe :=
  fun x y => instDecidableEqBool (obKeyLeB x y) true

/-- Result envelope of `checkDigitalTradeObligations`; note that the
empty-input return path carries no `countries` key. -/
structure ObligationsResult where
  found : Bool
  countries : Option (List (String × String))
  count : Option Nat
  obligations : Option (List ObJoined)
  message : Option String
  _meta : ResponseMeta
  deriving DecidableEq

/-- The row list computed by the obligations scan for the (already
uppercased) code list: `OR`-of-`LIKE` filter, left join,
`ORDER BY dto.agreement_id, dto.chapter`. -/
def obQueryRows (obdb : List ObligationRow) (ags : List Agreement)
    (codes : List String) : List ObJoined :=
  List.insertionSort obKeyLe
    ((obdb.filter (obMatch codes)).map
      (fun r => ObJoined.mk r (joinAgreementTitle ags r.agreement_id)))

/-- `checkDigitalTradeObligations` from `src/tools/digital-trade-obligations.ts`:
empty input short-circuits to a validation not-found; otherwise uppercase all
codes, run the membership scan, and wrap. -/
def checkDigitalTradeObligations (obdb : List ObligationRow) (ags : List Agreement)
    (today : String) (countries : List String) : ObligationsResult :=
  if countries.isEmpty then
    { found := false, countries := none, count := none, obligations := none,
      message := some ("At least one country code is required."),
      _meta := buildMeta today }
  else
    let codes := countries.map strUpper
    let rows := obQueryRows obdb ags codes
    if rows.isEmpty then
      { found := false, countries := some (codes.map (fun c => (c, countryName c))),
        count := none, obligations := none,
        message := some (("No digital trade obligations found for ")
          ++ String.intercalate (", ") (codes.map countryName) ++ (".")),
        _meta := buildMeta today }
    else
      { found := true, countries := some (codes.map (fun c => (c, countryName c))),
        count := some rows.length, obligations := some rows, message := none,
        _meta := buildMeta today }

/-- The rows payload of an obligations result (`[]` when absent). -/
def obRows (r : ObligationsResult) : List ObJoined := r.obligations.getD []

/-- Spec-side containment predicate for the membership scan: the (uppercased)
query code occurs in the `countries` field as a case-insensitive substring,
i.e. some contiguous slice of the field uppercases to the uppercased code. -/
def containsCodeCI (hay pat : String) : Prop :=
  ∃ v : List Char, v <:+: hay.data ∧ v.map Char.toUpper = pat.data.map Char.toUpper

-- ── Concrete fixtures for witnesses and counterexamples ──────────────────

/-- Fixture: an `AR → EU` transfer-rule row (cf. the seed data). -/
def dtrRowAREU : TransferRule :=
  { id := 1, source_country := ("AR"), dest_country := ("EU"),
    framework := some ("Ley 25.326"), adequacy_status := some ("adequacy"),
    transfer_mechanisms := none, restrictions := none, legal_basis := none }

/-- Fixture: a degenerate self-pair transfer-rule row. -/
def dtrRowARAR : TransferRule :=
  { id := 2, source_country := ("AR"), dest_country := ("AR"),
    framework := none, adequacy_status := none,
    transfer_mechanisms := none, restrictions := none, legal_basis := none }

/-- Fixture: a `BR`/`AR` mutual-recognition row. -/
def mrRowBRAR : MutualRecognitionRow :=
  { id := 1, country_a := ("BR"), country_b := ("AR"),
    domain := ("customs_procedures"), agreement_id := none,
    description := none, status := some ("active") }

/-- Fixture: an obligation row whose `countries` field is `"BR,AR"`. -/
def obRowBRAR : ObligationRow :=
  { id := 1, agreement_id := some ("mercosur-ec"), countries := ("BR,AR"),
    obligation := ("data_flows"), chapter := some ("7"),
    description := none, legal_basis := none }

/-- Fixture: an obligation row whose `countries` field is `"CL,PE"`. -/
def obRowCLPE : ObligationRow :=
  { id := 2, agreement_id := some ("pa-digital"), countries := ("CL,PE"),
    obligation := ("open_data"), chapter := some ("11"),
    description := none, legal_basis := none }

/-- Fixture: an obligation row whose `countries` field is the two characters
`"br"` (lowercase). -/
def obRowLower : ObligationRow :=
  { id := 3, agreement_id := none, countries := ("br"),
    obligation := ("cooperation"), chapter := none,
    description := none, legal_basis := none }

-- ── Order lemmas for the `ORDER BY` comparators ──────────────────────────

/-- `listLtB` is transitive. -/
theorem listLtB_trans : ∀ a b c : List Char,
    listLtB a b = true → listLtB b c = true → listLtB a c = true := by
  intro a
  induction a with
  | nil =>
    intro b c h1 h2
    cases b with
    | nil => simp [listLtB] at h1
    | cons y ys =>
      cases c with
      | nil => simp [listLtB] at h2
      | cons z zs => simp [listLtB]
  | cons x xs ih =>
    intro b c h1 h2
    cases b with
    | nil => simp [listLtB] at h1
    | cons y ys =>
      cases c with
      | nil => simp [listLtB] at h2
      | cons z zs =>
        simp only [listLtB, Bool.or_eq_true, Bool.and_eq_true, decide_eq_true_eq,
          beq_iff_eq] at h1 h2 ⊢
        rcases h1 with h1 | ⟨rfl, h1⟩
        · rcases h2 with h2 | ⟨rfl, h2⟩
          · exact Or.inl (lt_trans h1 h2)
          · exact Or.inl h1
        · rcases h2 with h2 | ⟨rfl, h2⟩
          · exact Or.inl h2
          · exact Or.inr ⟨rfl, ih ys zs h1 h2⟩

/-- `listLtB` is trichotomous. -/
theorem listLtB_trich : ∀ a b : List Char,
    listLtB a b = true ∨ a = b ∨ listLtB b a = true := by
  intro a
  induction a with
  | nil =>
    intro b
    cases b with
    | nil => exact Or.inr (Or.inl rfl)
    | cons y ys => exact Or.inl (by simp [listLtB])
  | cons x xs ih =>
    intro b
    cases b with
    | nil => exact Or.inr (Or.inr (by simp [listLtB]))
    | cons y ys =>
      rcases lt_trichotomy x y with hxy | rfl | hxy
      · exact Or.inl (by simp [listLtB, hxy])
      · rcases ih ys with h | rfl | h
        · exact Or.inl (by simp [listLtB, h])
        · exact Or.inr (Or.inl rfl)
        · exact Or.inr (Or.inr (by simp [listLtB, h]))
      · exact Or.inr (Or.inr (by simp [listLtB, hxy]))

/-- `strLtB` is transitive. -/
theorem strLtB_trans (a b c : String) :
    strLtB a b = true → strLtB b c = true → strLtB a c = true :=
  listLtB_trans a.data b.data c.data

/-- `strLtB` is trichotomous. -/
theorem strLtB_trich (a b : String) : strLtB a b = true ∨ a = b ∨ strLtB b a = true := by
  rcases listLtB_trich a.data b.data with h | h | h
  · exact Or.inl h
  · exact Or.inr (Or.inl (String.ext h))
  · exact Or.inr (Or.inr h)

/-- `optLtB` is transitive. -/
theorem optLtB_trans : ∀ a b c : Option String,
    optLtB a b = true → optLtB b c = true → optLtB a c = true := by
  intro a b c h1 h2
  cases a with
  | none =>
    cases c with
    | none =>
      cases b with
      | none => exact h1
      | some y => simp [optLtB] at h2
    | some z => rfl
  | some x =>
    cases b with
    | none => simp [optLtB] at h1
    | some y =>
      cases c with
      | none => simp [optLtB] at h2
      | some z => exact strLtB_trans x y z h1 h2

/-- `optLtB` is trichotomous. -/
theorem optLtB_trich (a b : Option String) :
    optLtB a b = true ∨ a = b ∨ optLtB b a = true := by
  cases a with
  | none =>
    cases b with
    | none => exact Or.inr (Or.inl rfl)
    | some y => exact Or.inl rfl
  | some x =>
    cases b with
    | none => exact Or.inr (Or.inr rfl)
    | some y =>
      rcases strLtB_trich x y with h | rfl | h
      · exact Or.inl h
      · exact Or.inr (Or.inl rfl)
      · exact Or.inr (Or.inr h)

/-- `optLeB` splits into the strict part and equality. -/
theorem optLeB_iff (a b : Option String) :
    optLeB a b = true ↔ optLtB a b = true ∨ a = b := by
  simp [optLeB, Bool.or_eq_true, beq_iff_eq]

/-- `optLeB` is transitive. -/
theorem optLeB_trans (a b c : Option String) :
    optLeB a b = true → optLeB b c = true → optLeB a c = true := by
  intro h1 h2
  rcases (optLeB_iff a b).mp h1 with h1' | rfl
  · rcases (optLeB_iff b c).mp h2 with h2' | rfl
    · exact (optLeB_iff a c).mpr (Or.inl (optLtB_trans _ _ _ h1' h2'))
    · exact (optLeB_iff a b).mpr (Or.inl h1')
  · exact h2

/-- `optLeB` is total. -/
theorem optLeB_total (a b : Option String) : optLeB a b = true ∨ optLeB b a = true := by
  rcases optLtB_trich a b with h | rfl | h
  · exact Or.inl ((optLeB_iff a b).mpr (Or.inl h))
  · exact Or.inl ((optLeB_iff a a).mpr (Or.inr rfl))
  · exact Or.inr ((optLeB_iff b a).mpr (Or.inl h))

/-- `obKeyLe` split into its lexicographic disjunction. -/
theorem obKeyLe_iff (x y : ObJoined) :
    obKeyLe x y ↔ (optLtB x.row.agreement_id y.row.agreement_id = true
      ∨ (x.row.agreement_id = y.row.agreement_id ∧ optLeB x.row.chapter y.row.chapter = true)) := by
  simp [obKeyLe, obKeyLeB, Bool.or_eq_true, Bool.and_eq_true, beq_iff_eq]

/-- The `ORDER BY (agreement_id, chapter)` comparison is transitive. -/
theorem obKeyLe_trans (x y z : ObJoined) : obKeyLe x y → obKeyLe y z → obKeyLe x z := by
  rw [obKeyLe_iff, obKeyLe_iff, obKeyLe_iff]
  intro h1 h2
  rcases h1 with h1 | ⟨e1, l1⟩
  · rcases h2 with h2 | ⟨e2, l2⟩
    · exact Or.inl (optLtB_trans _ _ _ h1 h2)
    · rw [← e2]
      exact Or.inl h1
  · rcases h2 with h2 | ⟨e2, l2⟩
    · rw [e1]
      exact Or.inl h2
    · exact Or.inr ⟨e1.trans e2, optLeB_trans _ _ _ l1 l2⟩

/-- The `ORDER BY (agreement_id, chapter)` comparison is total. -/
theorem obKeyLe_total (x y : ObJoined) : obKeyLe x y ∨ obKeyLe y x := by
  rcases optLtB_trich x.row.agreement_id y.row.agreement_id with h | e | h
  · exact Or.inl ((obKeyLe_iff x y).mpr (Or.inl h))
  · rcases optLeB_total x.row.chapter y.row.chapter with h' | h'
    · exact Or.inl ((obKeyLe_iff x y).mpr (Or.inr ⟨e, h'⟩))
    · exact Or.inr ((obKeyLe_iff y x).mpr (Or.inr ⟨e.symm, h'⟩))
  · exact Or.inr ((obKeyLe_iff y x).mpr (Or.inl h))

-- ── Lemmas about the `LIKE` matcher ──────────────────────────────────────

/-- Unfolding for a `%`-headed pattern: match any suffix of the text. -/
theorem likeMatch_pct (ps t : List Char) :
    likeMatch ('%' :: ps) t = t.tails.any (fun u => likeMatch ps u) := by
  simp [likeMatch]

/-- A `%`-headed pattern matches iff the rest matches some suffix. -/
theorem likeMatch_pct_iff (ps s : List Char) :
    likeMatch ('%' :: ps) s = true ↔ ∃ t, t <:+ s ∧ likeMatch ps t = true := by
  rw [likeMatch_pct]
  simp [List.any_eq_true, List.mem_tails]

/-- The pattern `%` alone matches every text. -/
theorem likeMatch_single_pct (s : List Char) : likeMatch ([ '%' ]) s = true :=
  (likeMatch_pct_iff [] s).mpr ⟨[], List.nil_suffix, rfl⟩

/-- The pattern `%%%` (the spliced pattern for the query code `%`) matches
every text. -/
theorem likeMatch_triple_pct (s : List Char) : likeMatch ([ '%', '%', '%' ]) s = true :=
  (likeMatch_pct_iff _ s).mpr ⟨s, List.suffix_refl s,
    (likeMatch_pct_iff _ s).mpr ⟨s, List.suffix_refl s, likeMatch_single_pct s⟩⟩

/-- A literal-headed pattern never matches the empty text. -/
theorem likeMatch_lit_nil (q : Char) (ps : List Char) (hq : q ≠ '%') :
    likeMatch (q :: ps) [] = false := by
  simp [likeMatch, beq_iff_eq, hq]

/-- Unfolding for a literal-headed pattern on a non-empty text. -/
theorem likeMatch_lit_cons (q : Char) (ps : List Char) (c : Char) (cs : List Char)
    (h1 : q ≠ '%') (h2 : q ≠ '_') :
    likeMatch (q :: ps) (c :: cs) = ((q.toUpper == c.toUpper) && likeMatch ps cs) := by
  simp [likeMatch, beq_iff_eq, h1, h2]

/-- A wildcard-free pattern followed by a trailing `%` matches iff some prefix
of the text equals the pattern up to ASCII case. -/
theorem likeMatch_lit_pct_iff : ∀ p : List Char, (∀ q ∈ p, q ≠ '%' ∧ q ≠ '_') →
    ∀ s : List Char, (likeMatch (p ++ [ '%' ]) s = true ↔
      ∃ v, v <+: s ∧ v.map Char.toUpper = p.map Char.toUpper) := by
  intro p
  induction p with
  | nil =>
    intro _ s
    constructor
    · intro _
      exact ⟨[], List.nil_prefix, rfl⟩
    · intro _
      exact likeMatch_single_pct s
  | cons q p' ih =>
    intro hfree s
    have hq := hfree q (List.mem_cons_self q p')
    have hrest : ∀ r ∈ p', r ≠ '%' ∧ r ≠ '_' := fun r hr => hfree r (List.mem_cons_of_mem q hr)
    cases s with
    | nil =>
      rw [List.cons_append, likeMatch_lit_nil q _ hq.1]
      constructor
      · intro h
        cases h
      · rintro ⟨v, hv, hmap⟩
        rw [List.prefix_nil] at hv
        subst hv
        simp at hmap
    | cons c cs =>
      rw [List.cons_append, likeMatch_lit_cons q _ c cs hq.1 hq.2]
      constructor
      · intro h
        rw [Bool.and_eq_true] at h
        obtain ⟨hqc, hm⟩ := h
        obtain ⟨v, hv, hmap⟩ := (ih hrest cs).mp hm
        refine ⟨c :: v, List.cons_prefix_cons.mpr ⟨rfl, hv⟩, ?_⟩
        simp only [List.map_cons, hmap]
        congr 1
        exact (beq_iff_eq.mp hqc).symm
      · rintro ⟨v, hv, hmap⟩
        cases v with
        | nil => simp at hmap
        | cons d v' =>
          obtain ⟨rfl, hv'⟩ := List.cons_prefix_cons.mp hv
          simp only [List.map_cons, List.cons.injEq] at hmap
          obtain ⟨hdq, hmap'⟩ := hmap
          rw [Bool.and_eq_true]
          exact ⟨beq_iff_eq.mpr hdq.symm, (ih hrest cs).mpr ⟨v', hv', hmap'⟩⟩

/-- For a wildcard-free code, the spliced `%code%` pattern matches exactly the
texts containing the code as an ASCII-case-insensitive substring. -/
theorem likeMatch_pattern_iff (code : String) (s : List Char)
    (hfree : ∀ q ∈ code.data, q ≠ '%' ∧ q ≠ '_') :
    likeMatch (likePattern code) s = true ↔
      ∃ v, v <:+: s ∧ v.map Char.toUpper = code.data.map Char.toUpper := by
  unfold likePattern
  rw [likeMatch_pct_iff]
  constructor
  · rintro ⟨t, hts, hm⟩
    obtain ⟨v, hvt, hmap⟩ := (likeMatch_lit_pct_iff code.data hfree t).mp hm
    exact ⟨v, List.infix_iff_prefix_suffix.mpr ⟨t, hvt, hts⟩, hmap⟩
  · rintro ⟨v, hvin, hmap⟩
    obtain ⟨t, hvt, hts⟩ := List.infix_iff_prefix_suffix.mp hvin
    exact ⟨t, hts, (likeMatch_lit_pct_iff code.data hfree t).mpr ⟨v, hvt, hmap⟩⟩

/-- The scan condition, for wildcard-free codes, is exactly case-insensitive
substring containment of some query code. -/
theorem obMatch_iff (codes : List String) (r : ObligationRow)
    (hfree : ∀ c ∈ codes, ∀ q ∈ c.data, q ≠ '%' ∧ q ≠ '_') :
    obMatch codes r = true ↔ ∃ c ∈ codes, containsCodeCI r.countries c := by
  unfold obMatch
  rw [List.any_eq_true]
  simp only [containsCodeCI]
  constructor
  · rintro ⟨c, hc, h⟩
    exact ⟨c, hc, (likeMatch_pattern_iff c r.countries.data (hfree c hc)).mp h⟩
  · rintro ⟨c, hc, h⟩
    exact ⟨c, hc, (likeMatch_pattern_iff c r.countries.data (hfree c hc)).mpr h⟩

-- ── Bookkeeping lemmas ───────────────────────────────────────────────────

/-- Counting occurrences of `r` after filtering by `q` keeps the count when
`q r` holds and zeroes it otherwise. -/
theorem countP_decide_and {α : Type} [DecidableEq α] (l : List α) (q : α → Bool) (r : α) :
    l.countP (fun x => decide (x = r) && q x) =
      if q r = true then l.countP (fun x => decide (x = r)) else 0 := by
  induction l with
  | nil => simp
  | cons x xs ih =>
    by_cases hx : x = r
    · subst hx
      by_cases hq : q x = true
      · simp [List.countP_cons, ih, hq]
      · simp [List.countP_cons, ih, hq]
    · simp [List.countP_cons, ih, hx]

/-- The rows payload of a non-empty-input obligations call is exactly the
query row list (also when that list is empty). -/
theorem obRows_spec (obdb : List ObligationRow) (ags : List Agreement) (today : String)
    (cs : List String) (h : cs ≠ []) :
    obRows (checkDigitalTradeObligations obdb ags today cs)
      = obQueryRows obdb ags (cs.map strUpper) := by
  have hne : ¬(cs.isEmpty = true) := by simpa [List.isEmpty_iff] using h
  unfold checkDigitalTradeObligations
  rw [if_neg hne]
  by_cases h2 : (obQueryRows obdb ags (cs.map strUpper)).isEmpty
  · rw [List.isEmpty_iff] at h2
    simp [obRows, h2]
  · have h2' : ¬((obQueryRows obdb ags (cs.map strUpper)).isEmpty = true) := h2
    simp only [h2', if_false, ite_false, Bool.false_eq_true]
    simp [obRows, h2']

/-- The rows payload of a mutual-recognition call is exactly the query row
list (also when that list is empty). -/
theorem mrRows_spec (mrdb : List MutualRecognitionRow) (ags : List Agreement)
    (today a b : String) (dom : Option String) :
    mrRows (getMutualRecognition mrdb ags today a b dom)
      = mrQueryRows mrdb ags (strUpper a) (strUpper b) dom := by
  unfold getMutualRecognition
  by_cases h2 : (mrQueryRows mrdb ags (strUpper a) (strUpper b) dom).isEmpty
  · rw [List.isEmpty_iff] at h2
    simp [mrRows, h2]
  · have h2' : ¬((mrQueryRows mrdb ags (strUpper a) (strUpper b) dom).isEmpty = true) := h2
    simp [mrRows, h2']

/-- The mutual-recognition query row list is symmetric in the two codes. -/
theorem mrQueryRows_comm (mrdb : List MutualRecognitionRow) (ags : List Agreement)
    (A B : String) (dom : Option String) :
    mrQueryRows mrdb ags A B dom = mrQueryRows mrdb ags B A dom := by
  unfold mrQueryRows
  have hf : mrdb.filter (mrPairMatch A B) = mrdb.filter (mrPairMatch B A) :=
    List.filter_congr (fun r _ => by simp only [mrPairMatch]; exact Bool.or_comm _ _)
  rw [hf]

-- ── Claim theorems ───────────────────────────────────────────────────────

/-- C3: multi-row resolution is order-independent — for every store, every
pair of codes and every optional domain value, `getMutualRecognition (A, B)`
and `getMutualRecognition (B, A)` return the identical matched row set (and
the same `found` flag and `count`), because the pair condition is a true
union of both storage orderings evaluated in one query. -/
theorem mr_order_independent (mrdb : List MutualRecognitionRow) (ags : List Agreement)
    (today a b : String) (dom : Option String) :
    (getMutualRecognition mrdb ags today a b dom).agreements
        = (getMutualRecognition mrdb ags today b a dom).agreements
    ∧ (getMutualRecognition mrdb ags today a b dom).found
        = (getMutualRecognition mrdb ags today b a dom).found
    ∧ (getMutualRecognition mrdb ags today a b dom).count
        = (getMutualRecognition mrdb ags today b a dom).count := by
  simp only [getMutualRecognition]
  rw [mrQueryRows_comm mrdb ags (strUpper a) (strUpper b) dom]
  by_cases h : (mrQueryRows mrdb ags (strUpper b) (strUpper a) dom).isEmpty = true
  · simp only [if_pos h]
    exact ⟨trivial, trivial, trivial⟩
  · simp only [if_neg h]
    exact ⟨trivial, trivial, trivial⟩

/-- C4 (amended): for every call that supplies a non-empty domain, every
returned row has its stored domain exactly equal to the requested domain
(case-sensitive); the empty-string domain is treated as absent by the
code's truthiness test and filters nothing. -/
theorem mr_domain_filter_exact (mrdb : List MutualRecognitionRow) (ags : List Agreement)
    (today a b : String) (dom : String) (hdom : dom ≠ (""))
    (jr : MRJoined)
    (hjr : jr ∈ mrRows (getMutualRecognition mrdb ags today a b (some dom))) :
    jr.row.domain = dom := by
  rw [mrRows_spec] at hjr
  simp only [mrQueryRows] at hjr
  have ht : truthyStr (some dom) = true := by simp [truthyStr, hdom]
  rw [if_pos ht] at hjr
  rw [List.Perm.mem_iff (List.perm_insertionSort _ _)] at hjr
  rw [List.mem_map] at hjr
  obtain ⟨r, hr, rfl⟩ := hjr
  rw [List.mem_filter] at hr
  have hd := hr.2
  rw [beq_iff_eq] at hd
  simpa using hd

/-- Witness for C4: a concrete call with domain `customs_procedures` returns
only rows carrying exactly that domain. -/
theorem mr_domain_filter_exact_witness :
    (MRJoined.mk mrRowBRAR none).row.domain = ("customs_procedures") :=
  mr_domain_filter_exact [mrRowBRAR] [] ("2026-02-03") ("BR") ("AR")
    ("customs_procedures") (by decide) (MRJoined.mk mrRowBRAR none) (by decide)

/-- Counterexample to C4 as stated: supplying the empty-string domain is
"supplying a domain", yet the call returns a row whose stored domain is
`customs_procedures` ≠ `""`, because `if (input.domain)` is falsy on `""`. -/
theorem mr_domain_truthiness_cex :
    (getMutualRecognition [mrRowBRAR] [] ("2026-02-03") ("BR") ("AR") (some (""))).domain
        = some ("")
    ∧ (getMutualRecognition [mrRowBRAR] [] ("2026-02-03") ("BR") ("AR") (some (""))).agreements
        = some ([MRJoined.mk mrRowBRAR none])
    ∧ mrRowBRAR.domain ≠ ("") := by
  refine ⟨by decide, by decide, by decide⟩

/-- C7 (amended): for the empty input list, `checkDigitalTradeObligations`
returns, regardless of any database state, `found: false` with the fixed
validation message — but this envelope omits the `countries` echo field that
a data-absence (zero matching rows) response carries. -/
theorem dto_empty_input_validation (obdb : List ObligationRow) (ags : List Agreement)
    (today : String) :
    checkDigitalTradeObligations obdb ags today [] =
      { found := false, countries := none, count := none, obligations := none,
        message := some ("At least one country code is required."),
        _meta := buildMeta today } := rfl

/-- Counterexample to C7's envelope clause as stated: the validation response
carries no `countries` field while the data-absence response does, so the two
envelopes do not have the same fields. -/
theorem dto_empty_envelope_cex :
    (checkDigitalTradeObligations [] [] ("2026-02-03") []).found
        = (checkDigitalTradeObligations [] [] ("2026-02-03") [("ZZ")]).found
    ∧ (checkDigitalTradeObligations [] [] ("2026-02-03") []).countries = none
    ∧ (checkDigitalTradeObligations [] [] ("2026-02-03") [("ZZ")]).countries
        = some ([(("ZZ"), ("ZZ"))]) := by
  refine ⟨by decide, by decide, by decide⟩

/-- C8: every response of the three resolver tools, found or not, carries the
metadata block `buildMeta today`, identical in shape across tools, holding
the disclaimer string, the freshness marker, and the server identity and
version. -/
theorem meta_block_uniform (dtrdb : List TransferRule) (mrdb : List MutualRecognitionRow)
    (obdb : List ObligationRow) (ags : List Agreement) (today s d a b : String)
    (dom : Option String) (cs : List String) :
    (getDataTransferRules dtrdb today s d)._metadata = buildMeta today
    ∧ (getMutualRecognition mrdb ags today a b dom)._meta = buildMeta today
    ∧ (checkDigitalTradeObligations obdb ags today cs)._meta = buildMeta today
    ∧ (buildMeta today).disclaimer = DISCLAIMER
    ∧ (buildMeta today).data_age = today
    ∧ (buildMeta today).server = ("mercosur-trade-mcp")
    ∧ (buildMeta today).version = ("0.1.0") := by
  refine ⟨?_, ?_, ?_, rfl, rfl, rfl, rfl⟩
  · simp only [getDataTransferRules]
    split
    · rfl
    · split
      · rfl
      · rfl
  · simp only [getMutualRecognition]
    split
    · rfl
    · rfl
  · simp only [checkDigitalTradeObligations]
    split
    · rfl
    · split
      · rfl
      · rfl

/-- C9 (amended): display-name resolution never fails — a code whose
uppercased form is in the static mapping resolves to the mapped name, and an
unknown code falls back to its uppercased form (the code itself only when the
input is already uppercase). -/
theorem countryName_total_resolution (code : String) :
    (∀ p, COUNTRY_NAMES.find? (fun q => q.1 == strUpper code) = some p →
      countryName code = p.2)
    ∧ (COUNTRY_NAMES.find? (fun q => q.1 == strUpper code) = none →
      countryName code = strUpper code) := by
  constructor
  · intro p hp
    unfold countryName
    rw [hp]
  · intro hp
    unfold countryName
    rw [hp]

/-- Witness for C9: a mapped code resolves to its display name, and an
unknown lowercase code resolves to its uppercased form. -/
theorem countryName_total_resolution_witness :
    countryName ("br") = ("Brazil") ∧ countryName ("xx") = ("XX") := by
  have h1 := (countryName_total_resolution ("br")).1 ((("BR"), ("Brazil"))) (by decide)
  have h2 := (countryName_total_resolution ("xx")).2 (by decide)
  exact ⟨h1, h2.trans (by decide)⟩

/-- Counterexample to C9 as stated: `xx` is unknown to the mapping, yet
`countryName` returns `XX`, not the code itself. -/
theorem countryName_fallback_cex :
    COUNTRY_NAMES.find? (fun q => q.1 == strUpper ("xx")) = none
    ∧ countryName ("xx") ≠ ("xx") := by
  refine ⟨by decide, by decide⟩

/-- The exact-direction condition as a proposition. -/
theorem dtrExact_iff (A B : String) (r : TransferRule) :
    dtrExact A B r = true ↔ (r.source_country = A ∧ r.dest_country = B) := by
  simp [dtrExact, Bool.and_eq_true, beq_iff_eq]

/-- `countP` distributes over a disjunction of disjoint conditions. -/
theorem countP_or_disjoint {α : Type} (l : List α) (p q : α → Bool)
    (h : ∀ a, ¬(p a = true ∧ q a = true)) :
    l.countP (fun x => p x || q x) = l.countP p + l.countP q := by
  induction l with
  | nil => simp
  | cons x xs ih =>
    cases hpx : p x
    · cases hqx : q x
      · simp [List.countP_cons, hpx, hqx, ih]
      · simp [List.countP_cons, hpx, hqx, ih]
        omega
    · cases hqx : q x
      · simp [List.countP_cons, hpx, hqx, ih]
        omega
      · exact absurd ⟨hpx, hqx⟩ (h x)

/-- C1: single-row resolver contract of `getDataTransferRules` — both codes
are uppercased and echoed; if some stored row matches the exact order the
result is found with `reversed_lookup: false` and carries such a row; only
when no exact-order row exists is the reversed order consulted, yielding
`reversed_lookup: true`; when neither direction has a row the result is not
found with the message naming both resolved display names.  The `rules`
payload is an `Option`, so at most one row is ever returned. -/
theorem dtr_single_row_contract (db : List TransferRule) (today s d : String) :
    ((getDataTransferRules db today s d).source_country = strUpper s
      ∧ (getDataTransferRules db today s d).dest_country = strUpper d)
    ∧ ((∃ r ∈ db, r.source_country = strUpper s ∧ r.dest_country = strUpper d) →
        (getDataTransferRules db today s d).found = true
        ∧ (getDataTransferRules db today s d).reversed_lookup = some false
        ∧ ∃ r ∈ db, (r.source_country = strUpper s ∧ r.dest_country = strUpper d)
            ∧ (getDataTransferRules db today s d).rules = some r)
    ∧ ((∀ r ∈ db, ¬(r.source_country = strUpper s ∧ r.dest_country = strUpper d)) →
        (∃ r ∈ db, r.source_country = strUpper d ∧ r.dest_country = strUpper s) →
        (getDataTransferRules db today s d).found = true
        ∧ (getDataTransferRules db today s d).reversed_lookup = some true
        ∧ ∃ r ∈ db, (r.source_country = strUpper d ∧ r.dest_country = strUpper s)
            ∧ (getDataTransferRules db today s d).rules = some r)
    ∧ ((∀ r ∈ db, ¬(r.source_country = strUpper s ∧ r.dest_country = strUpper d)) →
        (∀ r ∈ db, ¬(r.source_country = strUpper d ∧ r.dest_country = strUpper s)) →
        (getDataTransferRules db today s d).found = false
        ∧ (getDataTransferRules db today s d).rules = none
        ∧ (getDataTransferRules db today s d).message
            = some (("No data transfer rules found between ") ++ countryName (strUpper s)
              ++ (" and ") ++ countryName (strUpper d) ++ ("."))) := by
  cases h1 : db.find? (dtrExact (strUpper s) (strUpper d)) with
  | some r1 =>
    have hval : getDataTransferRules db today s d =
        { found := true, source_country := strUpper s,
          source_country_name := countryName (strUpper s),
          dest_country := strUpper d, dest_country_name := countryName (strUpper d),
          reversed_lookup := some false, rules := some r1, message := none,
          _metadata := buildMeta today } := by
      simp only [getDataTransferRules]
      rw [h1]
    have hr1 : r1 ∈ db := List.mem_of_find?_eq_some h1
    have hp1 : r1.source_country = strUpper s ∧ r1.dest_country = strUpper d :=
      (dtrExact_iff _ _ r1).mp (List.find?_some h1)
    refine ⟨⟨by rw [hval], by rw [hval]⟩, ?_, ?_, ?_⟩
    · intro _
      exact ⟨by rw [hval], by rw [hval], r1, hr1, hp1, by rw [hval]⟩
    · intro hnone _
      exact absurd hp1 (hnone r1 hr1)
    · intro hnone _
      exact absurd hp1 (hnone r1 hr1)
  | none =>
    have hno1 : ∀ r ∈ db, ¬(r.source_country = strUpper s ∧ r.dest_country = strUpper d) :=
      fun r hr hp => (List.find?_eq_none.mp h1 r hr) ((dtrExact_iff _ _ r).mpr hp)
    cases h2 : db.find? (dtrExact (strUpper d) (strUpper s)) with
    | some r2 =>
      have hval : getDataTransferRules db today s d =
          { found := true, source_country := strUpper s,
            source_country_name := countryName (strUpper s),
            dest_country := strUpper d, dest_country_name := countryName (strUpper d),
            reversed_lookup := some true, rules := some r2, message := none,
            _metadata := buildMeta today } := by
        simp only [getDataTransferRules]
        rw [h1, h2]
      have hr2 : r2 ∈ db := List.mem_of_find?_eq_some h2
      have hp2 : r2.source_country = strUpper d ∧ r2.dest_country = strUpper s :=
        (dtrExact_iff _ _ r2).mp (List.find?_some h2)
      refine ⟨⟨by rw [hval], by rw [hval]⟩, ?_, ?_, ?_⟩
      · rintro ⟨r, hr, hp⟩
        exact absurd hp (hno1 r hr)
      · intro _ _
        exact ⟨by rw [hval], by rw [hval], r2, hr2, hp2, by rw [hval]⟩
      · intro _ hnone2
        exact absurd hp2 (hnone2 r2 hr2)
    | none =>
      have hno2 : ∀ r ∈ db, ¬(r.source_country = strUpper d ∧ r.dest_country = strUpper s) :=
        fun r hr hp => (List.find?_eq_none.mp h2 r hr) ((dtrExact_iff _ _ r).mpr hp)
      have hval : getDataTransferRules db today s d =
          { found := false, source_country := strUpper s,
            source_country_name := countryName (strUpper s),
            dest_country := strUpper d, dest_country_name := countryName (strUpper d),
            reversed_lookup := none, rules := none,
            message := some (("No data transfer rules found between ")
              ++ countryName (strUpper s) ++ (" and ") ++ countryName (strUpper d) ++ (".")),
            _metadata := buildMeta today } := by
        simp only [getDataTransferRules]
        rw [h1, h2]
      refine ⟨⟨by rw [hval], by rw [hval]⟩, ?_, ?_, ?_⟩
      · rintro ⟨r, hr, hp⟩
        exact absurd hp (hno1 r hr)
      · rintro _ ⟨r, hr, hp⟩
        exact absurd hp (hno2 r hr)
      · intro _ _
        exact ⟨by rw [hval], by rw [hval], by rw [hval]⟩

/-- Witness for C1: on a store holding the `AR → EU` row, the exact-order
call is found with `reversed_lookup: false`. -/
theorem dtr_single_row_contract_witness :
    (getDataTransferRules [dtrRowAREU] ("2026-02-03") ("ar") ("eu")).found = true
    ∧ (getDataTransferRules [dtrRowAREU] ("2026-02-03") ("ar") ("eu")).reversed_lookup
        = some false := by
  have h := (dtr_single_row_contract [dtrRowAREU] ("2026-02-03") ("ar") ("eu")).2.1
    ⟨dtrRowAREU, by decide, by decide, by decide⟩
  exact ⟨h.1, h.2.1⟩

/-- C2 (amended): for distinct uppercased codes `A ≠ B` such that the store
holds exactly one row for the unordered pair, both call orders are found with
the same rules payload, and exactly one of the two calls reports
`reversed_lookup: true`. -/
theorem dtr_symmetric_pair_reversed_flag (db : List TransferRule) (today a b : String)
    (hab : strUpper a ≠ strUpper b)
    (huniq : db.countP
        (fun r => dtrExact (strUpper a) (strUpper b) r || dtrExact (strUpper b) (strUpper a) r)
      = 1) :
    (getDataTransferRules db today a b).found = true
    ∧ (getDataTransferRules db today b a).found = true
    ∧ (getDataTransferRules db today a b).rules = (getDataTransferRules db today b a).rules
    ∧ ∃ v : Bool, (getDataTransferRules db today a b).reversed_lookup = some v
        ∧ (getDataTransferRules db today b a).reversed_lookup = some (!v) := by
  have hdisj : ∀ r, ¬(dtrExact (strUpper a) (strUpper b) r = true
      ∧ dtrExact (strUpper b) (strUpper a) r = true) := by
    rintro r ⟨hx, hy⟩
    rw [dtrExact_iff] at hx hy
    exact hab (hx.1.symm.trans hy.1)
  have hsum := countP_or_disjoint db (dtrExact (strUpper a) (strUpper b))
      (dtrExact (strUpper b) (strUpper a)) hdisj
  rw [hsum] at huniq
  have hcases : (db.countP (dtrExact (strUpper a) (strUpper b)) = 1
        ∧ db.countP (dtrExact (strUpper b) (strUpper a)) = 0)
      ∨ (db.countP (dtrExact (strUpper a) (strUpper b)) = 0
        ∧ db.countP (dtrExact (strUpper b) (strUpper a)) = 1) := by omega
  rcases hcases with ⟨hc1, hc2⟩ | ⟨hc1, hc2⟩
  · have hn2 : db.find? (dtrExact (strUpper b) (strUpper a)) = none :=
      List.find?_eq_none.mpr (List.countP_eq_zero.mp hc2)
    have hne1 : db.find? (dtrExact (strUpper a) (strUpper b)) ≠ none := by
      intro hn
      rw [List.countP_eq_zero.mpr (List.find?_eq_none.mp hn)] at hc1
      exact absurd hc1 (by decide)
    obtain ⟨r1, hr1⟩ := Option.ne_none_iff_exists'.mp hne1
    have E1 : getDataTransferRules db today a b =
        { found := true, source_country := strUpper a,
          source_country_name := countryName (strUpper a),
          dest_country := strUpper b, dest_country_name := countryName (strUpper b),
          reversed_lookup := some false, rules := some r1, message := none,
          _metadata := buildMeta today } := by
      simp only [getDataTransferRules]
      rw [hr1]
    have E2 : getDataTransferRules db today b a =
        { found := true, source_country := strUpper b,
          source_country_name := countryName (strUpper b),
          dest_country := strUpper a, dest_country_name := countryName (strUpper a),
          reversed_lookup := some true, rules := some r1, message := none,
          _metadata := buildMeta today } := by
      simp only [getDataTransferRules]
      rw [hn2, hr1]
    exact ⟨by rw [E1], by rw [E2], by rw [E1, E2], false, by rw [E1], by rw [E2]; rfl⟩
  · have hn1 : db.find? (dtrExact (strUpper a) (strUpper b)) = none :=
      List.find?_eq_none.mpr (List.countP_eq_zero.mp hc1)
    have hne2 : db.find? (dtrExact (strUpper b) (strUpper a)) ≠ none := by
      intro hn
      rw [List.countP_eq_zero.mpr (List.find?_eq_none.mp hn)] at hc2
      exact absurd hc2 (by decide)
    obtain ⟨r2, hr2⟩ := Option.ne_none_iff_exists'.mp hne2
    have E1 : getDataTransferRules db today a b =
        { found := true, source_country := strUpper a,
          source_country_name := countryName (strUpper a),
          dest_country := strUpper b, dest_country_name := countryName (strUpper b),
          reversed_lookup := some true, rules := some r2, message := none,
          _metadata := buildMeta today } := by
      simp only [getDataTransferRules]
      rw [hn1, hr2]
    have E2 : getDataTransferRules db today b a =
        { found := true, source_country := strUpper b,
          source_country_name := countryName (strUpper b),
          dest_country := strUpper a, dest_country_name := countryName (strUpper a),
          reversed_lookup := some false, rules := some r2, message := none,
          _metadata := buildMeta today } := by
      simp only [getDataTransferRules]
      rw [hr2]
    exact ⟨by rw [E1], by rw [E2], by rw [E1, E2], true, by rw [E1], by rw [E2]; rfl⟩

/-- Witness for C2: with the single `AR → EU` row stored, the reversed-order
call is found and returns the same payload as the exact-order call. -/
theorem dtr_symmetric_pair_reversed_flag_witness :
    (getDataTransferRules [dtrRowAREU] ("2026-02-03") ("EU") ("AR")).found = true
    ∧ (getDataTransferRules [dtrRowAREU] ("2026-02-03") ("EU") ("AR")).rules
        = (getDataTransferRules [dtrRowAREU] ("2026-02-03") ("AR") ("EU")).rules := by
  have h := dtr_symmetric_pair_reversed_flag [dtrRowAREU] ("2026-02-03") ("EU") ("AR")
    (by decide) (by decide)
  exact ⟨h.1, h.2.2.1⟩

/-- Counterexample to C2 as stated: for the degenerate pair `A = B = AR` the
store holds exactly one row for the unordered pair, both calls of the claim
coincide, and that call reports `reversed_lookup: false` — so it is false
that exactly one of the two calls has `reversed_lookup: true`. -/
theorem dtr_self_pair_cex :
    ([dtrRowARAR] : List TransferRule).countP
        (fun r => dtrExact (("AR")) (("AR")) r || dtrExact (("AR")) (("AR")) r) = 1
    ∧ (getDataTransferRules [dtrRowARAR] ("2026-02-03") ("AR") ("AR")).reversed_lookup
        = some false := by
  refine ⟨by decide, by decide⟩

/-- C6: monotonicity of the membership scan — for non-empty code lists
`S ⊆ T`, every obligation row returned for `S` is also returned for `T`. -/
theorem dto_scan_monotone (obdb : List ObligationRow) (ags : List Agreement)
    (today : String) (S T : List String) (hS : S ≠ []) (hsub : S ⊆ T)
    (jr : ObJoined)
    (hjr : jr ∈ obRows (checkDigitalTradeObligations obdb ags today S)) :
    jr ∈ obRows (checkDigitalTradeObligations obdb ags today T) := by
  have hT : T ≠ [] := by
    obtain ⟨x, hx⟩ := List.exists_mem_of_ne_nil S hS
    exact List.ne_nil_of_mem (hsub hx)
  rw [obRows_spec _ _ _ _ hS] at hjr
  rw [obRows_spec _ _ _ _ hT]
  unfold obQueryRows at hjr ⊢
  rw [List.Perm.mem_iff (List.perm_insertionSort _ _)] at hjr ⊢
  rw [List.mem_map] at hjr ⊢
  obtain ⟨r, hr, hjoin⟩ := hjr
  rw [List.mem_filter] at hr
  refine ⟨r, ?_, hjoin⟩
  rw [List.mem_filter]
  refine ⟨hr.1, ?_⟩
  have hm := hr.2
  unfold obMatch at hm ⊢
  rw [List.any_eq_true] at hm ⊢
  obtain ⟨c, hc, hlike⟩ := hm
  exact ⟨c, List.map_subset strUpper hsub hc, hlike⟩

/-- Witness for C6: a row returned for `["br"]` is also returned for
`["br", "cl"]`. -/
theorem dto_scan_monotone_witness :
    ObJoined.mk obRowBRAR none ∈ obRows (checkDigitalTradeObligations
      [obRowBRAR, obRowCLPE] [] ("2026-02-03") [("br"), ("cl")]) :=
  dto_scan_monotone [obRowBRAR, obRowCLPE] [] ("2026-02-03") [("br")] [("br"), ("cl")]
    (by decide) (by simp) (ObJoined.mk obRowBRAR none) (by decide)

/-- C10: the scan splices codes into `LIKE` patterns without escaping — the
query `["%"]` matches every stored row (the returned rows are a permutation
of the whole store), and an underscore matches any single character, so a row
whose `countries` field does not contain the uppercased query code as a
literal substring is still returned. -/
theorem dto_like_wildcard_injection (obdb : List ObligationRow) (ags : List Agreement)
    (today : String) :
    List.Perm ((obRows (checkDigitalTradeObligations obdb ags today [("%")])).map
        ObJoined.row) obdb
    ∧ obRows (checkDigitalTradeObligations [obRowLower] [] today [("b_")])
        = [ObJoined.mk obRowLower none]
    ∧ ¬ ((strUpper ("b_")).data <:+: obRowLower.countries.data) := by
  refine ⟨?_, ?_, by decide⟩
  · rw [obRows_spec _ _ _ _ (List.cons_ne_nil _ _)]
    unfold obQueryRows
    have hall : obdb.filter (obMatch ([("%")].map strUpper)) = obdb := by
      rw [List.filter_eq_self]
      intro r _
      unfold obMatch
      rw [List.any_eq_true]
      refine ⟨strUpper ("%"), by simp, ?_⟩
      have hpat : likePattern (strUpper ("%")) = ([ '%', '%', '%' ]) := by decide
      rw [hpat]
      exact likeMatch_triple_pct _
    rw [hall]
    have hperm := (List.perm_insertionSort obKeyLe
      (obdb.map (fun r => ObJoined.mk r (joinAgreementTitle ags r.agreement_id)))).map
        ObJoined.row
    rw [List.map_map] at hperm
    have hid : (ObJoined.row ∘ (fun r => ObJoined.mk r (joinAgreementTitle ags r.agreement_id)))
        = id := rfl
    rw [hid, List.map_id] at hperm
    exact hperm
  · rw [obRows_spec _ _ _ _ (List.cons_ne_nil _ _)]
    decide

/-- C5 (amended): membership-scan characterization for wildcard-free codes —
for every non-empty input list of codes none of whose characters uppercases
to a `LIKE` wildcard (`%` or `_`), the scan returns exactly the stored
obligation rows whose `countries` field contains at least one of the
uppercased query codes as an ASCII-case-insensitive substring, each such row
exactly as often as it is stored (once for a duplicate-free store, never
duplicated per matching code), ordered by agreement identifier and then by
chapter. -/
theorem dto_membership_scan (obdb : List ObligationRow) (ags : List Agreement)
    (today : String) (countries : List String) (hne : countries ≠ [])
    (hfree : ∀ c ∈ countries, ∀ q ∈ c.data,
      Char.toUpper q ≠ '%' ∧ Char.toUpper q ≠ '_') :
    List.Sorted obKeyLe (obRows (checkDigitalTradeObligations obdb ags today countries))
    ∧ ∀ r : ObligationRow,
      ((∃ c ∈ countries, containsCodeCI r.countries (strUpper c)) →
        (obRows (checkDigitalTradeObligations obdb ags today countries)).countP
            (fun x => decide (x = ObJoined.mk r (joinAgreementTitle ags r.agreement_id)))
          = obdb.countP (fun x => decide (x = r)))
      ∧ ((¬ ∃ c ∈ countries, containsCodeCI r.countries (strUpper c)) →
        (obRows (checkDigitalTradeObligations obdb ags today countries)).countP
            (fun x => decide (x = ObJoined.mk r (joinAgreementTitle ags r.agreement_id)))
          = 0) := by
  have hfree' : ∀ c ∈ countries.map strUpper, ∀ q ∈ c.data, q ≠ '%' ∧ q ≠ '_' := by
    intro c hc q hq
    rw [List.mem_map] at hc
    obtain ⟨c0, hc0, rfl⟩ := hc
    have hq' : q ∈ c0.data.map Char.toUpper := hq
    rw [List.mem_map] at hq'
    obtain ⟨q0, hq0, rfl⟩ := hq'
    exact hfree c0 hc0 q0 hq0
  rw [obRows_spec _ _ _ _ hne]
  constructor
  · exact @List.sorted_insertionSort ObJoined obKeyLe _ ⟨obKeyLe_total⟩ ⟨obKeyLe_trans⟩ _
  · intro r
    have hcount : (obQueryRows obdb ags (countries.map strUpper)).countP
          (fun x => decide (x = ObJoined.mk r (joinAgreementTitle ags r.agreement_id)))
        = if obMatch (countries.map strUpper) r = true
            then obdb.countP (fun x => decide (x = r)) else 0 := by
      unfold obQueryRows
      rw [List.Perm.countP_eq _ (List.perm_insertionSort _ _)]
      rw [List.countP_map]
      have hpt : ((fun x => decide (x = ObJoined.mk r (joinAgreementTitle ags r.agreement_id)))
            ∘ (fun r0 => ObJoined.mk r0 (joinAgreementTitle ags r0.agreement_id)))
          = (fun r0 => decide (r0 = r)) := by
        funext r0
        simp only [Function.comp_apply]
        rw [decide_eq_decide]
        constructor
        · intro h
          rw [ObJoined.mk.injEq] at h
          exact h.1
        · rintro rfl
          rfl
      rw [hpt, List.countP_filter]
      have hsw : (fun a => decide (a = r) && obMatch (countries.map strUpper) a)
          = (fun a => decide (a = r) && (fun x => obMatch (countries.map strUpper) x) a) := rfl
      rw [hsw, countP_decide_and obdb (fun x => obMatch (countries.map strUpper) x) r]
    rw [hcount]
    have hiff : obMatch (countries.map strUpper) r = true ↔
        ∃ c ∈ countries, containsCodeCI r.countries (strUpper c) := by
      rw [obMatch_iff _ r hfree']
      constructor
      · rintro ⟨c, hc, h⟩
        rw [List.mem_map] at hc
        obtain ⟨c0, hc0, rfl⟩ := hc
        exact ⟨c0, hc0, h⟩
      · rintro ⟨c0, hc0, h⟩
        exact ⟨strUpper c0, List.mem_map_of_mem strUpper hc0, h⟩
    constructor
    · intro hex
      rw [if_pos (hiff.mpr hex)]
    · intro hnex
      rw [if_neg (fun hob => hnex (hiff.mp hob))]

/-- Witness for C5: a concrete scan with the wildcard-free code `br` over a
one-row store is sorted and returns the matching row exactly once. -/
theorem dto_membership_scan_witness :
    List.Sorted obKeyLe
      (obRows (checkDigitalTradeObligations [obRowBRAR] [] ("2026-02-03") [("br")]))
    ∧ (obRows (checkDigitalTradeObligations [obRowBRAR] [] ("2026-02-03") [("br")])).countP
        (fun x => decide (x = ObJoined.mk obRowBRAR (joinAgreementTitle [] obRowBRAR.agreement_id)))
      = ([obRowBRAR] : List ObligationRow).countP (fun x => decide (x = obRowBRAR)) := by
  have h := dto_membership_scan [obRowBRAR] [] ("2026-02-03") [("br")]
    (List.cons_ne_nil _ _) (by decide)
  refine ⟨h.1, (h.2 obRowBRAR).1 ?_⟩
  refine ⟨("br"), List.mem_cons_self _ _, ?_⟩
  exact ⟨[ 'B', 'R' ], ⟨[], [ ',', 'A', 'R' ], by decide⟩, by decide⟩

/-- Counterexample to C5 as stated: the scan is not literal-substring
matching.  A row whose `countries` field is the lowercase `br` is returned
for the query code `BR` although `br` does not contain the uppercased code
`BR` as a substring (the `LIKE` comparison is ASCII-case-insensitive), and a
row `CL,PE` is returned for the query code `%` although it does not contain
`%` at all. -/
theorem dto_substring_scan_cex :
    (obRows (checkDigitalTradeObligations [obRowLower] [] ("2026-02-03") [("BR")])
        = [ObJoined.mk obRowLower none]
      ∧ ¬ ((strUpper ("BR")).data <:+: obRowLower.countries.data))
    ∧ (obRows (checkDigitalTradeObligations [obRowCLPE] [] ("2026-02-03") [("%")])
        = [ObJoined.mk obRowCLPE none]
      ∧ ¬ ((strUpper ("%")).data <:+: obRowCLPE.countries.data)) := by
  refine ⟨⟨?_, by decide⟩, ⟨?_, by decide⟩⟩
  · rw [obRows_spec _ _ _ _ (List.cons_ne_nil _ _)]
    decide
  · rw [obRows_spec _ _ _ _ (List.cons_ne_nil _ _)]
    decide
